import Mathlib

/-!
Verification of the zenopay adapter / HTTP resilience layer.

Shallow embedding of:
- src/src/adapter/sync.ts    : BaseSyncAdapter.executeWithRetry
- src/unnamed/part_000       : BaseAsyncAdapter (retry loop, backoff, admission
                               queue and concurrency counter)
- src/unnamed/part_001       : AdapterManager, HttpAdapter pipeline, adapter types
- src/src/http/http-error.ts : HttpError constructors
- src/unnamed/part_002       : HTTP config / response type declarations

JS machine integers are modelled as Nat/Int (no overflow is relevant at the
magnitudes involved), thrown exceptions as Except, and async control flow
either as attempt-indexed oracles (for the retry loops) or as a small-step
transition relation (for the admission queue / concurrency counter, whose
claims quantify over interleavings).
-/

namespace Zenopay

/-- JS `x || d` on an optional number: both `undefined` and `0` are falsy. -/
def jsOr (x : Option Nat) (d : Nat) : Nat :=
  match x with
  | some n => if n = 0 then d else n
  | none => d

/-- JS `x || d` where `x` is an optional string: `undefined` and `""` are falsy. -/
def jsOrStr (x : Option String) (d : Option String) : Option String :=
  match x with
  | some s => if s = "" then d else some s
  | none => d

/-- Model of the JS `Error` values thrown and stored by the adapter layer.
`adapter` mirrors the `AdapterError` class hierarchy of src/unnamed/part_001
lines 163-187 (fields: message, adapterType, originalError, input);
`user` stands for an arbitrary error thrown by user-supplied
`execute` / `canHandle` code. -/
inductive JsErr (ι : Type) where
  | user (message : String)
  | adapter (message : String) (adapterType : String)
      (original : Option (JsErr ι)) (input : Option ι)

def JsErr.message {ι : Type} : JsErr ι → String
  | .user m => m
  | .adapter m _ _ _ => m

/-! ### Synchronous adapter retry loop (src/src/adapter/sync.ts) -/

/-- `SyncAdapterConfig` (src/unnamed/part_001 lines 145-155) as it sits in
`this.config` after the constructor spread.  A `none` field corresponds to a
JS `undefined` reaching the use site; every use site re-applies a `||`
fallback, which `jsOr` models. -/
structure SyncCfg where
  retries : Option Nat
  maxExecutionTime : Option Nat
  priority : Option Int

/-- `const maxRetries = this.config.retries || 1` (sync.ts line 20). -/
def syncMaxRetries (c : SyncCfg) : Nat := jsOr c.retries 1

/-- One observation of the abstract `execute` call of a sync adapter: it either
throws, or returns a value after a measured wall-clock duration
(`Date.now()` differences, sync.ts lines 24-26). -/
inductive SyncAttempt (ι ω : Type) where
  | throws (e : JsErr ι)
  | returns (v : ω) (duration : Nat)

/-- The body of the `try` block of sync.ts lines 23-37 for one attempt:
run `execute`; if it returned but took longer than the configured (truthy)
`maxExecutionTime`, throw the overtime `SyncAdapterError`; otherwise return. -/
def syncTryBody {ι ω : Type} (c : SyncCfg) (input : ι) (a : SyncAttempt ι ω) :
    Except (JsErr ι) ω :=
  match a with
  | .throws e => .error e
  | .returns v dur =>
    match c.maxExecutionTime with
    | some m =>
      if m ≠ 0 ∧ dur > m then
        .error (.adapter (s!"Execution time {dur}ms exceeded maximum {m}ms")
          "sync" none (some input))
      else .ok v
    | none => .ok v

/-- The wrapped error thrown on the final failed attempt (sync.ts lines 40-44):
`SyncAdapterError` with the interpolated message, the last cause and the input. -/
def syncExhaustedError {ι : Type} (n : Nat) (last : JsErr ι) (input : ι) : JsErr ι :=
  let m := last.message
  .adapter (s!"Sync adapter failed after {n} attempts: {m}") "sync" (some last) (some input)

/-- The `for (attempt …)` loop of sync.ts lines 22-47, instrumented with the
number of `execute` invocations (second component).  `fuel` is
`maxRetries - attempt`; the fuel-0 case is the fall-through
`throw lastError!` after the loop (sync.ts line 49), reachable only when
`maxRetries = 0`, which `jsOr` rules out. -/
def syncRetryGo {ι ω : Type} (c : SyncCfg) (exec : Nat → SyncAttempt ι ω)
    (input : ι) (maxRetries : Nat) :
    Nat → Option (JsErr ι) → Nat → Except (JsErr ι) ω × Nat
  | _, lastError, 0 =>
    (.error (lastError.getD (.user "lastError is undefined")), 0)
  | attempt, _, fuel + 1 =>
    match syncTryBody c input (exec attempt) with
    | .ok v => (.ok v, 1)
    | .error e =>
      if attempt = maxRetries - 1 then
        (.error (syncExhaustedError maxRetries e input), 1)
      else
        let r := syncRetryGo c exec input maxRetries (attempt + 1) (some e) fuel
        (r.1, r.2 + 1)

/-- `BaseSyncAdapter.executeWithRetry` (sync.ts lines 18-50): result together
with the number of `execute` invocations performed. -/
def syncExecuteWithRetry {ι ω : Type} (c : SyncCfg) (exec : Nat → SyncAttempt ι ω)
    (input : ι) : Except (JsErr ι) ω × Nat :=
  syncRetryGo c exec input (syncMaxRetries c) 0 none (syncMaxRetries c)

/-! ### Asynchronous adapter retry loop (src/unnamed/part_000) -/

inductive BackoffKind where
  | linear
  | exponential
deriving DecidableEq

/-- `AsyncAdapterConfig` (src/unnamed/part_001 lines 157-161) as it sits in
`this.config`: constructor defaults are timeout 10000, retries 3,
concurrency 5, queueSize 100, backoff exponential, but a caller-supplied
explicit `undefined` still reaches the use sites, so every field stays
optional and the use-site `||` fallbacks are applied by `jsOr`. -/
structure AsyncCfg where
  timeout : Option Nat
  retries : Option Nat
  concurrency : Option Nat
  queueSize : Option Nat
  backoff : Option BackoffKind

/-- `const maxRetries = this.config.retries || 1` (part_000 line 29). -/
def asyncMaxRetries (c : AsyncCfg) : Nat := jsOr c.retries 1

/-- `calculateBackoffDelay` (part_000 lines 101-106): `1000 * 2^attempt` when
the configured backoff is exactly `'exponential'`, and `1000 * (attempt+1)`
otherwise (the `: baseDelay * (attempt + 1)` branch of the ternary). -/
def calculateBackoffDelay (c : AsyncCfg) (attempt : Nat) : Nat :=
  if c.backoff = some .exponential then 1000 * 2 ^ attempt
  else 1000 * (attempt + 1)

/-- Outcome of one attempt of `performExecuteWithRetry`: the settled value of
`await Promise.race([executePromise, timeoutPromise])` (part_000 lines
34-44) — a success, a user failure, or the racing timeout rejection (which is
just another `JsErr`).  `execCalls` counts invocations of `execute`,
`delays` lists the backoff sleeps performed, in order. -/
structure AsyncRunResult (ι ω : Type) where
  result : Except (JsErr ι) ω
  execCalls : Nat
  delays : List Nat

/-- The post-loop wrapped error of part_000 lines 58-63: `AsyncAdapterError`
with the interpolated message, the last cause and the original input. -/
def asyncExhaustedError {ι : Type} (n : Nat) (last : JsErr ι) (input : ι) : JsErr ι :=
  let m := last.message
  .adapter (s!"Async adapter failed after {n} attempts: {m}") "async" (some last) (some input)

/-- The retry loop of `performExecuteWithRetry` (part_000 lines 27-64).
`fuel` is `maxRetries - attempt`; fuel 0 is the post-loop
`throw new AsyncAdapterError(...)` of lines 58-63 (reachable as the loop
exit only when `maxRetries = 0`, which `jsOr` rules out; the wrapping of the
final attempt's error is produced in the `attempt = maxRetries - 1` branch,
matching the loop exiting right after the last failed attempt). -/
def asyncRetryGo {ι ω : Type} (c : AsyncCfg) (attemptRes : Nat → Except (JsErr ι) ω)
    (input : ι) (maxRetries : Nat) :
    Nat → Option (JsErr ι) → Nat → AsyncRunResult ι ω
  | _, lastError, 0 =>
    let m := (lastError.map JsErr.message).getD "lastError is undefined"
    ⟨.error (.adapter (s!"Async adapter failed after {maxRetries} attempts: {m}")
      "async" lastError (some input)), 0, []⟩
  | attempt, _, fuel + 1 =>
    match attemptRes attempt with
    | .ok v => ⟨.ok v, 1, []⟩
    | .error e =>
      if attempt < maxRetries - 1 then
        let d := calculateBackoffDelay c attempt
        let r := asyncRetryGo c attemptRes input maxRetries (attempt + 1) (some e) fuel
        ⟨r.result, r.execCalls + 1, d :: r.delays⟩
      else
        ⟨.error (asyncExhaustedError maxRetries e input), 1, []⟩

/-- `BaseAsyncAdapter.performExecuteWithRetry` (part_000 lines 27-64). -/
def performExecuteWithRetry {ι ω : Type} (c : AsyncCfg)
    (attemptRes : Nat → Except (JsErr ι) ω) (input : ι) : AsyncRunResult ι ω :=
  asyncRetryGo c attemptRes input (asyncMaxRetries c) 0 none (asyncMaxRetries c)

/-! ### Admission queue and concurrency counter (src/unnamed/part_000)

`addToQueue` / `processQueue` / the per-attempt counter updates of
`performExecuteWithRetry` are modelled as a small-step transition system over
the adapter's private state (`executionQueue`, `activeExecutions`, and the
lifecycle phase of every submitted operation).  Each step is one cooperative
scheduler turn of the JS code:

- `submit`   : `addToQueue` runs its admission check and either rejects
               (queue full) or pushes the queued closure (lines 66-88).
- `dispatch` : `processQueue` finds `active < concurrency`, shifts the head
               and starts it; the started operation synchronously enters
               `performExecuteWithRetry`, whose first statement increments
               `activeExecutions` (lines 90-99 and 30-32).  The `while`
               busy-wait of lines 74-76 never blocks on its first check since
               it runs in the same turn as the `processQueue` guard.
- `retryStep`: a non-final attempt fails; after the backoff sleep the
               `finally` decrement and the next iteration's increment happen
               inside one turn, so the counter is unchanged and the op keeps
               holding exactly one slot (lines 46-56).
- `finishOk` / `finishFail`: the last turn of an operation — the `finally`
               decrement on the success / final-failure / timeout exit
               (lines 45, 54-56); timeout of the race is just one way an
               attempt fails, so it is covered by the same two constructors. -/

inductive OpPhase where
  | queued
  | running (attemptsLeft : Nat)
  | done (success : Bool)
deriving DecidableEq

def OpPhase.isRunning : OpPhase → Bool
  | .running _ => true
  | _ => false

/-- The mutable private state of one `BaseAsyncAdapter`: `ops` assigns every
submitted operation (identified by its index) its phase, `queue` is
`executionQueue` as the FIFO list of ids, `active` is `activeExecutions`. -/
structure QState where
  ops : List OpPhase
  queue : List Nat
  active : Nat
deriving DecidableEq

def QState.init : QState := ⟨[], [], 0⟩

/-- `this.config.concurrency || 5` (part_000 lines 75, 91). -/
def AsyncCfg.limit (c : AsyncCfg) : Nat := jsOr c.concurrency 5

/-- `this.config.queueSize || 100` (part_000 line 68). -/
def AsyncCfg.capacity (c : AsyncCfg) : Nat := jsOr c.queueSize 100

/-- `addToQueue` admission (part_000 lines 66-88): reject synchronously with
`AsyncAdapterError('Execution queue is full')` when
`executionQueue.length >= queueSize`, leaving all state untouched; otherwise
push the operation.  The second component is the immediate rejection, if any. -/
def addToQueue (c : AsyncCfg) (s : QState) : QState × Option (JsErr Unit) :=
  if s.queue.length ≥ c.capacity then
    (s, some (.adapter "Execution queue is full" "async" none none))
  else
    ({ ops := s.ops ++ [.queued], queue := s.queue ++ [s.ops.length],
       active := s.active }, none)

def runningCount (s : QState) : Nat := s.ops.countP OpPhase.isRunning

inductive QStep (c : AsyncCfg) : QState → QState → Prop where
  | submit (s : QState) : QStep c s (addToQueue c s).1
  | dispatch (s : QState) (id : Nat) (rest : List Nat)
      (hq : s.queue = id :: rest) (hact : s.active < c.limit)
      (hid : s.ops[id]? = some .queued) :
      QStep c s { ops := s.ops.set id (.running (asyncMaxRetries c)),
                  queue := rest, active := s.active + 1 }
  | retryStep (s : QState) (id : Nat) (k : Nat)
      (hid : s.ops[id]? = some (.running (k + 2))) :
      QStep c s { s with ops := s.ops.set id (.running (k + 1)) }
  | finishOk (s : QState) (id : Nat) (k : Nat)
      (hid : s.ops[id]? = some (.running (k + 1))) :
      QStep c s { ops := s.ops.set id (.done true), queue := s.queue,
                  active := s.active - 1 }
  | finishFail (s : QState) (id : Nat)
      (hid : s.ops[id]? = some (.running 1)) :
      QStep c s { ops := s.ops.set id (.done false), queue := s.queue,
                  active := s.active - 1 }

/-- States reachable from the freshly constructed adapter. -/
def QReach (c : AsyncCfg) (s : QState) : Prop :=
  Relation.ReflTransGen (QStep c) QState.init s

/-- The inductive invariant: the counter equals the number of operations
currently holding a slot (increments paired with decrements on every exit
path), the counter respects the concurrency limit, the queue respects its
capacity, queued ids are genuinely pending, and ids are unique. -/
def QInv (c : AsyncCfg) (s : QState) : Prop :=
  s.active = runningCount s ∧
  s.active ≤ c.limit ∧
  s.queue.length ≤ c.capacity ∧
  (∀ id ∈ s.queue, s.ops[id]? = some .queued) ∧
  s.queue.Nodup

theorem countP_set_balance {α : Type} (p : α → Bool) :
    ∀ (l : List α) (i : Nat) (a b : α), l[i]? = some a →
      (l.set i b).countP p + (if p a then 1 else 0) =
        l.countP p + (if p b then 1 else 0) := by
  intro l
  induction l with
  | nil => intro i a b h; simp at h
  | cons x xs ih =>
    intro i a b h
    cases i with
    | zero =>
      simp only [List.getElem?_cons_zero, Option.some.injEq] at h
      subst h
      simp [List.countP_cons]
      omega
    | succ j =>
      simp only [List.getElem?_cons_succ] at h
      have := ih j a b h
      simp [List.countP_cons]
      omega

theorem qstep_preserves_inv (c : AsyncCfg) {s t : QState}
    (hinv : QInv c s) (hstep : QStep c s t) : QInv c t := by
  obtain ⟨hcount, hlim, hcap, hqueued, hnodup⟩ := hinv
  unfold runningCount at hcount
  cases hstep with
  | submit =>
    unfold addToQueue
    by_cases hfull : s.queue.length ≥ c.capacity
    · simpa [hfull] using ⟨hcount, hlim, hcap, hqueued, hnodup⟩
    · simp only [hfull, if_false]
      refine ⟨?_, hlim, ?_, ?_, ?_⟩
      · show s.active = runningCount ⟨s.ops ++ [.queued], _, _⟩
        unfold runningCount
        rw [List.countP_append]
        simpa [OpPhase.isRunning] using hcount
      · show (s.queue ++ [s.ops.length]).length ≤ c.capacity
        simp only [List.length_append, List.length_singleton]
        omega
      · intro q hq
        show (s.ops ++ [.queued])[q]? = some .queued
        rcases List.mem_append.mp hq with hmem | hmem
        · have hold := hqueued q hmem
          have hlt : q < s.ops.length := (List.getElem?_eq_some.mp hold).1
          rw [List.getElem?_append]
          simpa [hlt] using hold
        · have : q = s.ops.length := by simpa using hmem
          subst this
          exact List.getElem?_concat_length _ _
      · show (s.queue ++ [s.ops.length]).Nodup
        refine List.Nodup.append hnodup (by simp) ?_
        intro q hmem hmem2
        have : q = s.ops.length := by simpa using hmem2
        subst this
        have := hqueued _ hmem
        have hlt : s.ops.length < s.ops.length := (List.getElem?_eq_some.mp this).1
        omega
  | dispatch id rest hq hact hid =>
    have hbal := countP_set_balance OpPhase.isRunning s.ops id _
      (.running (asyncMaxRetries c)) hid
    have e1 : OpPhase.isRunning OpPhase.queued = false := rfl
    have e2 : OpPhase.isRunning (OpPhase.running (asyncMaxRetries c)) = true := rfl
    rw [e1, e2] at hbal
    simp at hbal
    have hnodup2 : (id :: rest).Nodup := hq ▸ hnodup
    refine ⟨?_, ?_, ?_, ?_, (List.nodup_cons.mp hnodup2).2⟩
    · show s.active + 1 =
        List.countP OpPhase.isRunning (s.ops.set id (.running (asyncMaxRetries c)))
      omega
    · show s.active + 1 ≤ c.limit
      omega
    · show rest.length ≤ c.capacity
      have : (id :: rest).length ≤ c.capacity := hq ▸ hcap
      simp at this
      omega
    · intro q hqmem
      have hqmem1 : q ∈ rest := hqmem
      have hq0 : q ∈ s.queue := hq ▸ List.mem_cons_of_mem id hqmem1
      have hne : id ≠ q := by
        intro h
        exact (List.nodup_cons.mp hnodup2).1 (h ▸ hqmem1)
      show (s.ops.set id (.running (asyncMaxRetries c)))[q]? = some .queued
      rw [List.getElem?_set_ne hne]
      exact hqueued q hq0
  | retryStep id k hid =>
    have hbal := countP_set_balance OpPhase.isRunning s.ops id _
      (.running (k + 1)) hid
    have e1 : OpPhase.isRunning (OpPhase.running (k + 2)) = true := rfl
    have e2 : OpPhase.isRunning (OpPhase.running (k + 1)) = true := rfl
    rw [e1, e2] at hbal
    simp at hbal
    refine ⟨?_, hlim, hcap, ?_, hnodup⟩
    · show s.active = List.countP OpPhase.isRunning (s.ops.set id (.running (k + 1)))
      omega
    · intro q hqmem
      have hq0 : q ∈ s.queue := hqmem
      have hne : id ≠ q := by
        intro h
        have h2 := hqueued q hq0
        rw [← h, hid] at h2
        exact absurd (Option.some.inj h2) (by simp)
      show (s.ops.set id (.running (k + 1)))[q]? = some .queued
      rw [List.getElem?_set_ne hne]
      exact hqueued q hq0
  | finishOk id k hid =>
    have hbal := countP_set_balance OpPhase.isRunning s.ops id _ (.done true) hid
    have e1 : OpPhase.isRunning (OpPhase.running (k + 1)) = true := rfl
    have e2 : OpPhase.isRunning (OpPhase.done true) = false := rfl
    rw [e1, e2] at hbal
    simp at hbal
    refine ⟨?_, ?_, hcap, ?_, hnodup⟩
    · show s.active - 1 = List.countP OpPhase.isRunning (s.ops.set id (.done true))
      omega
    · show s.active - 1 ≤ c.limit
      omega
    · intro q hqmem
      have hq0 : q ∈ s.queue := hqmem
      have hne : id ≠ q := by
        intro h
        have h2 := hqueued q hq0
        rw [← h, hid] at h2
        exact absurd (Option.some.inj h2) (by simp)
      show (s.ops.set id (.done true))[q]? = some .queued
      rw [List.getElem?_set_ne hne]
      exact hqueued q hq0
  | finishFail id hid =>
    have hbal := countP_set_balance OpPhase.isRunning s.ops id _ (.done false) hid
    have e1 : OpPhase.isRunning (OpPhase.running 1) = true := rfl
    have e2 : OpPhase.isRunning (OpPhase.done false) = false := rfl
    rw [e1, e2] at hbal
    simp at hbal
    refine ⟨?_, ?_, hcap, ?_, hnodup⟩
    · show s.active - 1 = List.countP OpPhase.isRunning (s.ops.set id (.done false))
      omega
    · show s.active - 1 ≤ c.limit
      omega
    · intro q hqmem
      have hq0 : q ∈ s.queue := hqmem
      have hne : id ≠ q := by
        intro h
        have h2 := hqueued q hq0
        rw [← h, hid] at h2
        exact absurd (Option.some.inj h2) (by simp)
      show (s.ops.set id (.done false))[q]? = some .queued
      rw [List.getElem?_set_ne hne]
      exact hqueued q hq0

theorem qreach_inv (c : AsyncCfg) {s : QState} (h : QReach c s) : QInv c s := by
  induction h with
  | refl =>
    refine ⟨rfl, ?_, ?_, by simp [QState.init], by simp [QState.init]⟩
    · simp [QState.init]
    · simp [QState.init]
  | tail _ hstep ih => exact qstep_preserves_inv c ih hstep

/-! ### Characterization lemmas for the retry loops -/

theorem syncRetryGo_all_fail {ι ω : Type} (c : SyncCfg) (exec : Nat → SyncAttempt ι ω)
    (errs : Nat → JsErr ι) (input : ι) (hfail : ∀ k, exec k = .throws (errs k))
    (n : Nat) :
    ∀ fuel, 1 ≤ fuel → ∀ attempt le, attempt + fuel = n →
      syncRetryGo c exec input n attempt le fuel =
        (.error (syncExhaustedError n (errs (n - 1)) input), fuel) := by
  intro fuel
  induction fuel with
  | zero => omega
  | succ f ih =>
    intro _ attempt le hsum
    show syncRetryGo c exec input n attempt le (f + 1) = _
    rw [syncRetryGo, hfail attempt]
    show (match (Except.error (errs attempt) : Except (JsErr ι) ω) with
      | .ok v => ((.ok v : Except (JsErr ι) ω), 1)
      | .error e =>
        if attempt = n - 1 then (.error (syncExhaustedError n e input), 1)
        else
          let r := syncRetryGo c exec input n (attempt + 1) (some e) f
          (r.1, r.2 + 1)) = _
    cases f with
    | zero =>
      have hlast : attempt = n - 1 := by omega
      simp [hlast]
    | succ f2 =>
      have hnotlast : ¬ attempt = n - 1 := by omega
      have hrec := ih (by omega) (attempt + 1) (some (errs attempt)) (by omega)
      simp only [hnotlast, if_false]
      simp [hrec]

theorem asyncRetryGo_all_fail {ι ω : Type} (c : AsyncCfg)
    (res : Nat → Except (JsErr ι) ω) (errs : Nat → JsErr ι) (input : ι)
    (hfail : ∀ k, res k = .error (errs k)) (n : Nat) :
    ∀ fuel, 1 ≤ fuel → ∀ attempt le, attempt + fuel = n →
      asyncRetryGo c res input n attempt le fuel =
        ⟨.error (asyncExhaustedError n (errs (n - 1)) input), fuel,
         (List.range (fuel - 1)).map (fun j => calculateBackoffDelay c (attempt + j))⟩ := by
  intro fuel
  induction fuel with
  | zero => omega
  | succ f ih =>
    intro _ attempt le hsum
    show asyncRetryGo c res input n attempt le (f + 1) = _
    rw [asyncRetryGo, hfail attempt]
    show (match (Except.error (errs attempt) : Except (JsErr ι) ω) with
      | .ok v => (⟨.ok v, 1, []⟩ : AsyncRunResult ι ω)
      | .error e =>
        if attempt < n - 1 then
          let d := calculateBackoffDelay c attempt
          let r := asyncRetryGo c res input n (attempt + 1) (some e) f
          ⟨r.result, r.execCalls + 1, d :: r.delays⟩
        else ⟨.error (asyncExhaustedError n e input), 1, []⟩) = _
    cases f with
    | zero =>
      have hlast : ¬ attempt < n - 1 := by omega
      have : attempt = n - 1 := by omega
      simp [hlast, this]
    | succ f2 =>
      have hbefore : attempt < n - 1 := by omega
      have hrec := ih (by omega) (attempt + 1) (some (errs attempt)) (by omega)
      simp only [hbefore, if_true]
      simp only [hrec]
      refine congrArg (AsyncRunResult.mk _ _) ?_
      simp only [Nat.add_sub_cancel]
      show calculateBackoffDelay c attempt ::
          (List.range f2).map (fun j => calculateBackoffDelay c (attempt + 1 + j)) =
        (List.range (f2 + 1)).map (fun j => calculateBackoffDelay c (attempt + j))
      rw [List.range_succ_eq_map]
      simp only [List.map_cons, List.map_map]
      refine congrArg₂ _ (by simp) ?_
      refine congrArg (fun g => List.map g (List.range f2)) ?_
      funext j
      show calculateBackoffDelay c (attempt + 1 + j) = calculateBackoffDelay c (attempt + (j + 1))
      exact congrArg (calculateBackoffDelay c) (by omega)

theorem asyncRetryGo_delay_at {ι ω : Type} (c : AsyncCfg)
    (res : Nat → Except (JsErr ι) ω) (input : ι) (n : Nat) :
    ∀ fuel attempt le j d,
      ((asyncRetryGo c res input n attempt le fuel).delays)[j]? = some d →
      d = calculateBackoffDelay c (attempt + j) := by
  intro fuel
  induction fuel with
  | zero => intro attempt le j d h; simp [asyncRetryGo] at h
  | succ f ih =>
    intro attempt le j d h
    rw [asyncRetryGo] at h
    cases hres : res attempt with
    | ok v => rw [hres] at h; simp at h
    | error e =>
      rw [hres] at h
      by_cases hlt : attempt < n - 1
      · simp only [hlt, if_true] at h
        cases j with
        | zero =>
          rw [Nat.add_zero]
          simp at h
          omega
        | succ j2 =>
          simp only [List.getElem?_cons_succ] at h
          have hrec := ih (attempt + 1) (some e) j2 d h
          rw [hrec]
          exact congrArg (calculateBackoffDelay c) (by omega)
      · simp [hlt] at h

/-! ### Claim theorems: C1, C2, C3, C8 -/

/-- C1: for every async adapter with concurrency limit N, in every state
reachable by any interleaving of submissions, dispatches, attempt
retries/completions (success, failure, timeout), the `activeExecutions`
counter never exceeds N, and it always equals the number of operations
currently holding a slot — increments are paired with decrements on every
exit path, so no slot is permanently leaked (a finished operation
contributes nothing to the counter). -/
theorem c1_active_executions_never_exceed_limit (c : AsyncCfg) (s : QState)
    (h : QReach c s) :
    s.active ≤ c.limit ∧ s.active = runningCount s := by
  have hinv := qreach_inv c h
  exact ⟨hinv.2.1, hinv.1⟩

theorem c1_active_executions_never_exceed_limit_witness :
    (⟨[.running 2], [], 1⟩ : QState).active ≤
        AsyncCfg.limit ⟨none, some 2, some 2, some 3, none⟩ ∧
      (⟨[.running 2], [], 1⟩ : QState).active = runningCount ⟨[.running 2], [], 1⟩ :=
  c1_active_executions_never_exceed_limit ⟨none, some 2, some 2, some 3, none⟩ _
    (Relation.ReflTransGen.tail
      (Relation.ReflTransGen.tail Relation.ReflTransGen.refl (QStep.submit _))
      (QStep.dispatch _ 0 [] rfl (by decide) rfl))

/-- C3: a submission arriving while the queue already holds at least
`queueSize` entries is rejected synchronously with the
capacity `AsyncAdapterError`, leaving the adapter state (in particular the
queue) untouched; consequently the queue length never exceeds the capacity
in any reachable state. -/
theorem c3_queue_capacity_enforced (c : AsyncCfg) :
    (∀ s : QState, s.queue.length ≥ c.capacity →
      (addToQueue c s).2 = some (.adapter "Execution queue is full" "async" none none) ∧
      (addToQueue c s).1 = s) ∧
    (∀ s : QState, QReach c s → s.queue.length ≤ c.capacity) := by
  constructor
  · intro s hfull
    unfold addToQueue
    simp [hfull]
  · intro s h
    exact (qreach_inv c h).2.2.1

theorem c3_queue_capacity_enforced_witness :
    ((addToQueue ⟨none, some 1, some 1, some 1, none⟩ ⟨[.queued], [0], 0⟩).2 =
        some (.adapter "Execution queue is full" "async" none none) ∧
      (addToQueue ⟨none, some 1, some 1, some 1, none⟩ ⟨[.queued], [0], 0⟩).1 =
        ⟨[.queued], [0], 0⟩) ∧
    (⟨[.queued], [0], 0⟩ : QState).queue.length ≤
      AsyncCfg.capacity ⟨none, some 1, some 1, some 1, none⟩ := by
  constructor
  · exact (c3_queue_capacity_enforced _).1 _ (by decide)
  · exact (c3_queue_capacity_enforced _).2 _
      (Relation.ReflTransGen.tail Relation.ReflTransGen.refl (QStep.submit _))

/-- C2: for a sync or async adapter whose configured retry budget is N, with
every `execute` attempt failing, `executeWithRetry` invokes `execute`
exactly N times (with a minimum of one attempt when `retries` is unset or
zero) and then raises the retries-exhausted `SyncAdapterError` /
`AsyncAdapterError` wrapping the last underlying cause and the original
input. -/
theorem c2_retry_budget_exhaustion {ι₁ ω₁ ι₂ ω₂ : Type}
    (cS : SyncCfg) (execS : Nat → SyncAttempt ι₁ ω₁) (errsS : Nat → JsErr ι₁) (inS : ι₁)
    (cA : AsyncCfg) (resA : Nat → Except (JsErr ι₂) ω₂) (errsA : Nat → JsErr ι₂) (inA : ι₂)
    (hS : ∀ k, execS k = .throws (errsS k))
    (hA : ∀ k, resA k = .error (errsA k)) :
    (1 ≤ syncMaxRetries cS ∧
      (cS.retries = none ∨ cS.retries = some 0 → syncMaxRetries cS = 1) ∧
      (∀ N, cS.retries = some N → N ≠ 0 → syncMaxRetries cS = N) ∧
      (syncExecuteWithRetry cS execS inS).2 = syncMaxRetries cS ∧
      (syncExecuteWithRetry cS execS inS).1 =
        .error (syncExhaustedError (syncMaxRetries cS)
          (errsS (syncMaxRetries cS - 1)) inS)) ∧
    (1 ≤ asyncMaxRetries cA ∧
      (cA.retries = none ∨ cA.retries = some 0 → asyncMaxRetries cA = 1) ∧
      (∀ N, cA.retries = some N → N ≠ 0 → asyncMaxRetries cA = N) ∧
      (performExecuteWithRetry cA resA inA).execCalls = asyncMaxRetries cA ∧
      (performExecuteWithRetry cA resA inA).result =
        .error (asyncExhaustedError (asyncMaxRetries cA)
          (errsA (asyncMaxRetries cA - 1)) inA)) := by
  have hS1 : 1 ≤ syncMaxRetries cS := by
    unfold syncMaxRetries jsOr
    cases cS.retries with
    | none => simp
    | some n =>
      by_cases hn : n = 0
      · simp [hn]
      · simp only [hn, if_false]
        omega
  have hA1 : 1 ≤ asyncMaxRetries cA := by
    unfold asyncMaxRetries jsOr
    cases cA.retries with
    | none => simp
    | some n =>
      by_cases hn : n = 0
      · simp [hn]
      · simp only [hn, if_false]
        omega
  have hSrun := syncRetryGo_all_fail cS execS errsS inS hS (syncMaxRetries cS)
    (syncMaxRetries cS) hS1 0 none (by omega)
  have hArun := asyncRetryGo_all_fail cA resA errsA inA hA (asyncMaxRetries cA)
    (asyncMaxRetries cA) hA1 0 none (by omega)
  refine ⟨⟨hS1, ?_, ?_, ?_, ?_⟩, hA1, ?_, ?_, ?_, ?_⟩
  · rintro (h | h) <;> simp [syncMaxRetries, jsOr, h]
  · intro N h hN; simp [syncMaxRetries, jsOr, h, hN]
  · show (syncRetryGo cS execS inS (syncMaxRetries cS) 0 none (syncMaxRetries cS)).2 = _
    rw [hSrun]
  · show (syncRetryGo cS execS inS (syncMaxRetries cS) 0 none (syncMaxRetries cS)).1 = _
    rw [hSrun]
  · rintro (h | h) <;> simp [asyncMaxRetries, jsOr, h]
  · intro N h hN; simp [asyncMaxRetries, jsOr, h, hN]
  · show (asyncRetryGo cA resA inA (asyncMaxRetries cA) 0 none (asyncMaxRetries cA)).execCalls = _
    rw [hArun]
  · show (asyncRetryGo cA resA inA (asyncMaxRetries cA) 0 none (asyncMaxRetries cA)).result = _
    rw [hArun]

/-- An always-failing sync execute oracle, used by concrete instantiations. -/
def failingSyncExec : Nat → SyncAttempt Unit Unit :=
  fun _ => .throws (.user "boom")

/-- An always-failing async attempt oracle, used by concrete instantiations. -/
def failingAsyncRes : Nat → Except (JsErr Unit) Unit :=
  fun _ => .error (.user "boom")

theorem c2_retry_budget_exhaustion_witness :
    (syncExecuteWithRetry ⟨some 3, none, none⟩ failingSyncExec ()).2 = 3 ∧
    (syncExecuteWithRetry ⟨some 3, none, none⟩ failingSyncExec ()).1 =
      .error (syncExhaustedError 3 (.user "boom") ()) ∧
    (performExecuteWithRetry ⟨none, some 3, none, none, none⟩ failingAsyncRes ()).execCalls = 3 ∧
    (performExecuteWithRetry ⟨none, some 3, none, none, none⟩ failingAsyncRes ()).result =
      .error (asyncExhaustedError 3 (.user "boom") ()) := by
  have h := c2_retry_budget_exhaustion ⟨some 3, none, none⟩ failingSyncExec
    (fun _ => .user "boom") () ⟨none, some 3, none, none, none⟩ failingAsyncRes
    (fun _ => .user "boom") () (fun _ => rfl) (fun _ => rfl)
  exact ⟨h.1.2.2.2.1, h.1.2.2.2.2, h.2.2.2.2.1, h.2.2.2.2.2⟩

/-- C8: for every async adapter, the delay slept after the 0-indexed failed
non-final attempt k (the k-th entry of the run's backoff-delay trace) is
`1000 * 2^k` ms under exponential backoff and `1000 * (k+1)` ms under
linear backoff. -/
theorem c8_backoff_delay_formula {ι ω : Type} (c : AsyncCfg)
    (res : Nat → Except (JsErr ι) ω) (input : ι) (k : Nat) (d : Nat)
    (h : ((performExecuteWithRetry c res input).delays)[k]? = some d) :
    (c.backoff = some .exponential → d = 1000 * 2 ^ k) ∧
    (c.backoff = some .linear → d = 1000 * (k + 1)) := by
  have hd := asyncRetryGo_delay_at c res input (asyncMaxRetries c)
    (asyncMaxRetries c) 0 none k d h
  rw [Nat.zero_add] at hd
  subst hd
  constructor
  · intro hexp; simp [calculateBackoffDelay, hexp]
  · intro hlin; simp [calculateBackoffDelay, hlin]

theorem c8_backoff_delay_formula_witness :
    ((performExecuteWithRetry ⟨none, some 3, none, none, some .exponential⟩
        failingAsyncRes ()).delays)[1]? = some 2000 ∧
    2000 = 1000 * 2 ^ 1 :=
  ⟨by decide,
    (c8_backoff_delay_formula ⟨none, some 3, none, none, some .exponential⟩
      failingAsyncRes () 1 2000 (by decide)).1 rfl⟩

/-! ### URL resolution (src/unnamed/part_001, HttpAdapter.buildUrl, lines 479-492) -/

/-- JS `String.prototype.startsWith`, on the character lists. -/
def hasPrefixL : List Char → List Char → Bool
  | [], _ => true
  | _ :: _, [] => false
  | a :: as, b :: bs => a = b && hasPrefixL as bs

def strStartsWith (s p : String) : Bool := hasPrefixL p.toList s.toList

/-- JS `String.prototype.endsWith`, via the reversed character lists. -/
def strEndsWith (s p : String) : Bool := hasPrefixL p.toList.reverse s.toList.reverse

/-- JS `s.slice(0, -1)`: drop the last character (the empty string maps
to itself). -/
def strDropRight1 (s : String) : String := String.mk s.toList.dropLast

/-- `HttpAdapter.buildUrl` (part_001 lines 479-492): absolute `http(s)` URLs
pass through; with no (or empty, hence falsy) base URL the url passes
through; otherwise at most one trailing slash is stripped from the base, a
leading slash is added to the path when missing, and the two are
concatenated. -/
def buildUrl (url : String) (baseURL : Option String) : String :=
  if strStartsWith url "http://" || strStartsWith url "https://" then url
  else
    match baseURL with
    | none => url
    | some b =>
      if b = "" then url
      else
        let base := if strEndsWith b "/" then strDropRight1 b else b
        let path := if strStartsWith url "/" then url else "/" ++ url
        base ++ path

theorem strEndsWith_append_slash (b : String) : strEndsWith (b ++ "/") "/" = true := by
  unfold strEndsWith
  have : (b ++ "/").toList = b.toList ++ ['/'] := rfl
  rw [this]
  simp [hasPrefixL]

theorem strDropRight1_append_slash (b : String) : strDropRight1 (b ++ "/") = b := by
  unfold strDropRight1
  have h1 : (b ++ "/").toList = b.toList ++ ['/'] := rfl
  rw [h1, List.dropLast_concat]
  rfl

theorem strStartsWith_slash_append (p : String) : strStartsWith ("/" ++ p) "/" = true := by
  unfold strStartsWith
  have : ("/" ++ p).toList = '/' :: p.toList := rfl
  rw [this]
  simp [hasPrefixL]

/-- C7 (amended): an absolute `http://` or `https://` URL always passes
through unchanged; and provided the base URL carries at most one trailing
slash and the path at most one leading slash, a relative URL is joined to a
non-empty base with exactly one separating slash (in particular
`https://api.x/` ++ `/v1/users` resolves to `https://api.x/v1/users`).
The original unqualified claim fails when the base ends in a double slash
(see the counterexample). -/
theorem c7_build_url_join (b p base url : String)
    (hbase : base = b ∨ base = b ++ "/")
    (hurl : url = p ∨ url = "/" ++ p)
    (hb : strEndsWith b "/" = false)
    (hp : strStartsWith p "/" = false)
    (habs1 : strStartsWith url "http://" = false)
    (habs2 : strStartsWith url "https://" = false)
    (hbase0 : base ≠ "") :
    (∀ u bu, strStartsWith u "http://" = true ∨ strStartsWith u "https://" = true →
      buildUrl u bu = u) ∧
    buildUrl url (some base) = b ++ "/" ++ p := by
  constructor
  · intro u bu habs
    unfold buildUrl
    rcases habs with h | h <;> simp [h]
  · unfold buildUrl
    rw [habs1, habs2]
    simp only [Bool.or_false, if_false]
    rw [if_neg hbase0]
    have hbsplit : (if strEndsWith base "/" then strDropRight1 base else base) = b := by
      rcases hbase with rfl | rfl
      · rw [if_neg (by rw [hb]; exact Bool.false_ne_true)]
      · rw [if_pos (strEndsWith_append_slash b), strDropRight1_append_slash]
    have hpsplit : (if strStartsWith url "/" then url else "/" ++ url) = "/" ++ p := by
      rcases hurl with rfl | rfl
      · rw [if_neg (by rw [hp]; exact Bool.false_ne_true)]
      · rw [if_pos (strStartsWith_slash_append p)]
    rw [hbsplit, hpsplit, ← String.append_assoc]
    simp

/-- C7 counterexample: with base `https://api.x//` (which ends with a slash)
and relative path `v1` (which does not start with one), the code joins with
two separating slashes, not exactly one: the claimed single-slash join
`https://api.x/v1` is not produced. -/
theorem c7_build_url_join_counterexample :
    strEndsWith "https://api.x//" "/" = true ∧
    strStartsWith "v1" "/" = false ∧
    buildUrl "v1" (some "https://api.x//") = "https://api.x//v1" ∧
    buildUrl "v1" (some "https://api.x//") ≠ "https://api.x/v1" := by
  refine ⟨by decide, by decide, by decide, by decide⟩

theorem c7_build_url_join_witness :
    (∀ u bu, strStartsWith u "http://" = true ∨ strStartsWith u "https://" = true →
      buildUrl u bu = u) ∧
    buildUrl "/v1/users" (some "https://api.x/") = "https://api.x" ++ "/" ++ "v1/users" :=
  c7_build_url_join "https://api.x" "v1/users" "https://api.x/" "/v1/users"
    (Or.inr rfl) (Or.inr rfl) (by decide) (by decide) (by decide) (by decide)
    (by decide)

/-! ### AdapterManager dispatch (src/unnamed/part_001, lines 3-64) -/

/-- A registered sync adapter as the manager sees it: `canHandle` and the
execution path chosen at line 21-23 (`executeWithRetry` when the adapter
exposes one, else bare `execute`), both of which may throw; plus the
`config?.priority` consulted by `sortAdaptersByPriority`. -/
structure SyncAdapterM (ι ω : Type) where
  canHandle : ι → Except (JsErr ι) Bool
  run : ι → Except (JsErr ι) ω
  priority : Option Int

/-- `a.config?.priority || 1` (part_001 lines 60-61): `undefined` and `0`
are falsy. -/
def SyncAdapterM.effPriority {ι ω : Type} (a : SyncAdapterM ι ω) : Int :=
  match a.priority with
  | some p => if p = 0 then 1 else p
  | none => 1

/-- `AdapterManager.executeSync` (part_001 lines 17-31): walk the registry in
order; a throwing `canHandle`, a false `canHandle`, or a throwing execution
makes the loop continue; the first adapter that accepts and succeeds wins;
an exhausted registry raises the no-suitable-adapter error tagged sync. -/
def executeSync {ι ω : Type} (input : ι) : List (SyncAdapterM ι ω) → Except (JsErr ι) ω
  | [] => .error (.adapter "No suitable sync adapter found" "sync" none (some input))
  | a :: rest =>
    match a.canHandle input with
    | .error _ => executeSync input rest
    | .ok false => executeSync input rest
    | .ok true =>
      match a.run input with
      | .ok v => .ok v
      | .error _ => executeSync input rest

/-- `sortAdaptersByPriority` (part_001 lines 58-64): the registry is resorted
on every registration by descending `config?.priority || 1` with a stable
sort (JS `Array.prototype.sort` is stable); modelled by stable insertion
sort, which produces the same list as any stable sort under this
comparator. -/
def insertByPriority {ι ω : Type} (a : SyncAdapterM ι ω) :
    List (SyncAdapterM ι ω) → List (SyncAdapterM ι ω)
  | [] => [a]
  | b :: rest =>
    if b.effPriority < a.effPriority then a :: b :: rest
    else b :: insertByPriority a rest

def sortAdaptersByPriority {ι ω : Type} :
    List (SyncAdapterM ι ω) → List (SyncAdapterM ι ω)
  | [] => []
  | a :: rest => insertByPriority a (sortAdaptersByPriority rest)

/-- Descending-priority order of a registry. -/
def sortedDescPriority {ι ω : Type} (l : List (SyncAdapterM ι ω)) : Prop :=
  l.Pairwise (fun a b => b.effPriority ≤ a.effPriority)

/-- An adapter that `executeSync` skips on this input: `canHandle` throws,
returns false, or returns true with a failing execution. -/
def skips {ι ω : Type} (input : ι) (a : SyncAdapterM ι ω) : Prop :=
  (∃ e, a.canHandle input = .error e) ∨
  a.canHandle input = .ok false ∨
  (a.canHandle input = .ok true ∧ ∃ e, a.run input = .error e)

theorem executeSync_skips {ι ω : Type} (input : ι) (a : SyncAdapterM ι ω)
    (l : List (SyncAdapterM ι ω)) (h : skips input a) :
    executeSync input (a :: l) = executeSync input l := by
  rcases h with ⟨e, he⟩ | he | ⟨he, e, hr⟩ <;> simp [executeSync, he]
  rw [hr]

theorem mem_insertByPriority {ι ω : Type} (a x : SyncAdapterM ι ω) :
    ∀ l, x ∈ insertByPriority a l ↔ x = a ∨ x ∈ l := by
  intro l
  induction l with
  | nil => simp [insertByPriority]
  | cons b rest ih =>
    unfold insertByPriority
    by_cases hlt : b.effPriority < a.effPriority
    · simp [hlt]
    · simp only [hlt, if_false, List.mem_cons, ih]
      tauto

theorem insertByPriority_sorted {ι ω : Type} (a : SyncAdapterM ι ω)
    (l : List (SyncAdapterM ι ω)) (h : sortedDescPriority l) :
    sortedDescPriority (insertByPriority a l) := by
  induction l with
  | nil => simp [insertByPriority, sortedDescPriority]
  | cons b rest ih =>
    unfold sortedDescPriority at h
    rw [List.pairwise_cons] at h
    obtain ⟨hb, hrest⟩ := h
    unfold insertByPriority
    by_cases hlt : b.effPriority < a.effPriority
    · simp only [hlt, if_true]
      unfold sortedDescPriority
      rw [List.pairwise_cons]
      constructor
      · intro x hx
        rcases List.mem_cons.mp hx with rfl | hx2
        · omega
        · have := hb x hx2
          omega
      · rw [List.pairwise_cons]
        exact ⟨hb, hrest⟩
    · simp only [hlt, if_false]
      unfold sortedDescPriority
      rw [List.pairwise_cons]
      constructor
      · intro x hx
        rcases (mem_insertByPriority a x rest).mp hx with rfl | hx2
        · omega
        · exact hb x hx2
      · exact ih hrest

/-- C5: (i) registration keeps the registry sorted by descending effective
priority; (ii) `executeSync` returns the result of the first adapter in
registry order whose `canHandle` is true and whose execution succeeds,
unaffected by any earlier skipped adapters (false or throwing `canHandle`,
or a throwing execution); (iii) when every adapter is skipped,
`executeSync` raises the no-suitable-adapter error tagged with the sync
mode and carrying the input. -/
theorem c5_execute_sync_first_success {ι ω : Type} (input : ι)
    (pre post : List (SyncAdapterM ι ω)) (a : SyncAdapterM ι ω) (v : ω) :
    (∀ l : List (SyncAdapterM ι ω), sortedDescPriority (sortAdaptersByPriority l)) ∧
    ((∀ b ∈ pre, skips input b) → a.canHandle input = .ok true →
      a.run input = .ok v →
      executeSync input (pre ++ a :: post) = .ok v) ∧
    (∀ l : List (SyncAdapterM ι ω), (∀ b ∈ l, skips input b) →
      executeSync input l =
        .error (.adapter "No suitable sync adapter found" "sync" none (some input))) := by
  refine ⟨?_, ?_, ?_⟩
  · intro l
    induction l with
    | nil => simp [sortAdaptersByPriority, sortedDescPriority]
    | cons b rest ih => exact insertByPriority_sorted b _ ih
  · intro hpre hcan hrun
    induction pre with
    | nil => simp [executeSync, hcan, hrun]
    | cons b rest ih =>
      rw [List.cons_append,
        executeSync_skips input b _ (hpre b (List.mem_cons_self b rest))]
      exact ih (fun x hx => hpre x (List.mem_cons_of_mem b hx))
  · intro l hl
    induction l with
    | nil => rfl
    | cons b rest ih =>
      rw [executeSync_skips input b _ (hl b (List.mem_cons_self b rest))]
      exact ih (fun x hx => hl x (List.mem_cons_of_mem b hx))

/-- A concrete registry for the C5 instantiation: a declining adapter, a
throwing adapter, an accepting-but-failing adapter, then the succeeding one. -/
def c5Registry : List (SyncAdapterM Nat Nat) :=
  [⟨fun _ => .ok false, fun n => .ok n, some 9⟩,
   ⟨fun _ => .error (.user "probe blew up"), fun n => .ok n, some 8⟩,
   ⟨fun _ => .ok true, fun _ => .error (.user "exec blew up"), some 7⟩,
   ⟨fun _ => .ok true, fun n => .ok (n + 1), some 1⟩]

theorem c5_execute_sync_first_success_witness :
    sortedDescPriority (sortAdaptersByPriority c5Registry) ∧
    executeSync 41 c5Registry = .ok 42 ∧
    executeSync 41 ([] : List (SyncAdapterM Nat Nat)) =
      .error (.adapter "No suitable sync adapter found" "sync" none (some 41)) := by
  have h := c5_execute_sync_first_success 41 (c5Registry.take 3)
    ([] : List (SyncAdapterM Nat Nat))
    ⟨fun _ => .ok true, fun n => .ok (n + 1), some 1⟩ 42
  refine ⟨h.1 c5Registry, ?_, h.2.2 [] (by simp)⟩
  have h2 := h.2.1 ?_ rfl rfl
  · exact h2
  · intro b hb
    simp only [c5Registry, List.take, List.mem_cons, List.not_mem_nil, or_false] at hb
    rcases hb with rfl | rfl | rfl
    · exact Or.inr (Or.inl rfl)
    · exact Or.inl ⟨.user "probe blew up", rfl⟩
    · exact Or.inr (Or.inr ⟨rfl, .user "exec blew up", rfl⟩)

/-! ### HttpAdapter pipeline (src/unnamed/part_001 lines 191-513,
src/src/http/http-error.ts, src/unnamed/part_002) -/

/-- A small model of JS runtime values as they flow through `data`,
`transformRequest`, body serialization and response parsing. -/
inductive JSVal where
  | undef
  | vnull
  | vbool (b : Bool)
  | vnum (n : Int)
  | vstr (s : String)
  | vobj (fields : List (String × JSVal))
  | vform (entries : List (String × String))
  | vblob (bytes : String)

/-- JS truthiness of a `JSVal` (NaN is not modelled). -/
def JSVal.truthy : JSVal → Bool
  | .undef => false
  | .vnull => false
  | .vbool b => b
  | .vnum n => n ≠ 0
  | .vstr s => s ≠ ""
  | .vobj _ => true
  | .vform _ => true
  | .vblob _ => true

def JSVal.isNullish : JSVal → Bool
  | .undef => true
  | .vnull => true
  | _ => false

inductive HttpMethod where
  | GET | POST | PUT | PATCH | DELETE | HEAD | OPTIONS
deriving DecidableEq

/-- `RequestConfig` (part_002 lines 5-18; `signal` is subsumed by the
fetch-outcome oracle and headers absent in JS are the empty list). -/
structure RequestConfig where
  method : Option HttpMethod
  url : Option String
  baseURL : Option String
  headers : List (String × String)
  params : List (String × JSVal)
  data : JSVal
  timeout : Option Nat
  retries : Option Nat
  validateStatus : Option (Nat → Bool)
  transformRequest : Option (JSVal → JSVal)
  transformResponse : Option (JSVal → JSVal)

/-- `AdapterConfig` (part_002 lines 31-39), the type of
`HttpAdapter.defaultConfig`. -/
structure AdapterCfg where
  baseURL : Option String
  timeout : Option Nat
  headers : Option (List (String × String))
  retries : Option Nat
  validateStatus : Option (Nat → Bool)
  transformRequest : Option (JSVal → JSVal)
  transformResponse : Option (JSVal → JSVal)

/-- The default status validator installed by the constructor
(part_001 line 201): `status >= 200 && status < 300`. -/
def defaultValidateStatus (status : Nat) : Bool :=
  200 ≤ status && status < 300

/-- The `HttpAdapter` constructor (part_001 lines 197-207): spread of the
built-in defaults under the user config — a field present in the user
config wins, otherwise the default applies (timeout 10000, retries 3, the
default validator, a JSON content-type header). -/
def mkHttpAdapterCfg (user : AdapterCfg) : AdapterCfg :=
  { baseURL := user.baseURL,
    timeout := some (user.timeout.getD 10000),
    headers := some (user.headers.getD [("Content-Type", "application/json")]),
    retries := some (user.retries.getD 3),
    validateStatus := some (user.validateStatus.getD defaultValidateStatus),
    transformRequest := user.transformRequest,
    transformResponse := user.transformResponse }

/-- Object-spread merge of two string records, second argument winning
(`{...a, ...b}`): keys of `a` keep their position with `b`-values where
overridden, then the new keys of `b` follow. -/
def mergeRecord (a b : List (String × String)) : List (String × String) :=
  (a.map fun kv =>
    (kv.1, (((b.filter fun kw => kw.1 = kv.1).map Prod.snd).getLast?).getD kv.2)) ++
  b.filter fun kw => ¬ a.any fun kv => kv.1 = kw.1

/-- `HttpAdapter.mergeConfig` (part_001 lines 323-335): resolve the URL via
`buildUrl(config.url || '', config.baseURL || defaults.baseURL)`, then
spread defaults under the call config with the resolved url and the merged
headers. -/
def mergeConfig (d : AdapterCfg) (cfg : RequestConfig) : RequestConfig :=
  let url := buildUrl ((jsOrStr cfg.url none).getD "") (jsOrStr cfg.baseURL d.baseURL)
  { method := cfg.method,
    url := some url,
    baseURL := cfg.baseURL <|> d.baseURL,
    headers := mergeRecord (d.headers.getD []) cfg.headers,
    params := cfg.params,
    data := cfg.data,
    timeout := cfg.timeout <|> d.timeout,
    retries := cfg.retries <|> d.retries,
    validateStatus := cfg.validateStatus <|> d.validateStatus,
    transformRequest := cfg.transformRequest <|> d.transformRequest,
    transformResponse := cfg.transformResponse <|> d.transformResponse }

/-- Substring test (`String.prototype.includes`): some suffix of the
haystack starts with the needle. -/
def hasSubstr (needle : List Char) : List Char → Bool
  | [] => needle.isEmpty
  | a :: rest => hasPrefixL needle (a :: rest) || hasSubstr needle rest

def strContains (s t : String) : Bool := hasSubstr t.toList s.toList

/-- The body issued with the transport request. `JSON.stringify` is kept
symbolic as the tagged payload (`jsonStringified`), since no claim depends
on the encoded text; `FormData` passes through as-is (part_001 lines
374-381). -/
inductive BodyModel where
  | form (entries : List (String × String))
  | jsonStringified (v : JSVal)

/-- Lines 374-381 of part_001: a body is attached only when the (possibly
request-transformed) data is truthy and the method is neither GET nor HEAD. -/
def computeBody (method : HttpMethod) (td : JSVal) : Option BodyModel :=
  if td.truthy && !(method = .GET) && !(method = .HEAD) then
    some (match td with
      | .vform es => .form es
      | v => .jsonStringified v)
  else none

/-- `String(value)` as used for query parameter values. -/
def jsValToParamString : JSVal → String
  | .undef => "undefined"
  | .vnull => "null"
  | .vbool b => if b then "true" else "false"
  | .vnum n => toString n
  | .vstr s => s
  | .vobj _ => "[object Object]"
  | .vform _ => "[object FormData]"
  | .vblob _ => "[object Blob]"

/-- `addQueryParams` (part_001 lines 494-508): unchanged when no params;
otherwise append the serialized non-nullish parameters.  The round-trip
through the platform `URL` object is modelled as plain text appending —
no claim depends on the exact re-serialization. -/
def addQueryParams (url : String) (params : List (String × JSVal)) : String :=
  if params.isEmpty then url
  else
    let kept := params.filter fun kv => !kv.2.isNullish
    url ++ "?" ++ String.intercalate "&"
      (kept.map fun kv => kv.1 ++ "=" ++ jsValToParamString kv.2)

/-- `HttpResponse` (part_002 lines 20-27). -/
structure HttpResponseM where
  data : JSVal
  status : Nat
  statusText : String
  headers : List (String × String)
  config : RequestConfig

/-- `HttpError` (http-error.ts): message plus the optional config, response,
code and status fields. -/
structure HttpErrorM where
  message : String
  config : Option RequestConfig
  response : Option HttpResponseM
  code : Option String
  status : Option Nat

/-- `HttpError.fromResponse` (http-error.ts lines 20-29). -/
def HttpError.fromResponse (resp : HttpResponseM) (cfg : RequestConfig) : HttpErrorM :=
  let st := resp.status
  let stx := resp.statusText
  { message := s!"Request failed with status {st}: {stx}",
    config := some cfg, response := some resp,
    code := some "REQUEST_FAILED", status := some resp.status }

/-- `HttpError.fromNetworkError` (http-error.ts lines 31-39). -/
def HttpError.fromNetworkError (msg : String) (cfg : RequestConfig) : HttpErrorM :=
  { message := s!"Network Error: {msg}", config := some cfg, response := none,
    code := some "NETWORK_ERROR", status := none }

/-- `HttpError.fromTimeout` (http-error.ts lines 41-48). -/
def HttpError.fromTimeout (cfg : RequestConfig) : HttpErrorM :=
  { message := "Request timeout", config := some cfg, response := none,
    code := some "TIMEOUT", status := none }

/-- What one `fetch` settles to: a response (with its three possible body
readings), an `AbortError` (timeout signal fired), another network error,
or a non-`Error` throw. -/
structure FetchSuccess where
  status : Nat
  statusText : String
  headers : List (String × String)
  contentType : Option String
  jsonVal : JSVal
  textVal : String
  blobVal : String

inductive FetchOutcome where
  | success (r : FetchSuccess)
  | abort
  | network (msg : String)
  | unknownThrow

/-- Response-body parsing by content type (part_001 lines 405-414):
JSON → structured value, `text/` → plain text, otherwise → blob (a missing
content-type header is falsy and also lands in the blob branch). -/
def parseBodyData (r : FetchSuccess) : JSVal :=
  match r.contentType with
  | some ct =>
    if strContains ct "application/json" then r.jsonVal
    else if strContains ct "text/" then .vstr r.textVal
    else .vblob r.blobVal
  | none => .vblob r.blobVal

/-- The `Request` object handed to `fetch` (part_001 lines 389-394): final
url with query params, defaulted method, headers, and the conditional body. -/
structure RequestModel where
  url : String
  method : HttpMethod
  headers : List (String × String)
  body : Option BodyModel

/-- `config.transformRequest ? config.transformRequest(data) : data`
(part_001 lines 370-372). -/
def transformedData (cfg : RequestConfig) : JSVal :=
  match cfg.transformRequest with
  | some f => f cfg.data
  | none => cfg.data

def builtRequest (cfg : RequestConfig) : RequestModel :=
  { url := addQueryParams (cfg.url.getD "") cfg.params,
    method := cfg.method.getD .GET,
    headers := cfg.headers,
    body := computeBody (cfg.method.getD .GET) (transformedData cfg) }

/-- The HTTP response assembled from a fetch success (part_001 lines
416-427): parsed body, optionally transformed by `transformResponse`. -/
def builtResponse (cfg : RequestConfig) (r : FetchSuccess) : HttpResponseM :=
  { data :=
      match cfg.transformResponse with
      | some f => f (parseBodyData r)
      | none => parseBodyData r,
    status := r.status,
    statusText := r.statusText,
    headers := r.headers,
    config := cfg }

/-- `config.validateStatus || this.defaultConfig.validateStatus!`
(part_001 line 429). -/
def effectiveValidate (d : AdapterCfg) (cfg : RequestConfig) : Nat → Bool :=
  match cfg.validateStatus with
  | some v => v
  | none => d.validateStatus.getD defaultValidateStatus

/-- `HttpAdapter.makeRequest` (part_001 lines 361-451): missing/empty URL is
an immediate `HttpError`; the transport call is the `fetch1` oracle applied
to the built request; an abort becomes the timeout error, other failures
the network / unknown errors; a successful fetch is parsed, transformed,
wrapped and then status-validated, a failing validator raising
`HttpError.fromResponse`. -/
def makeRequest (d : AdapterCfg) (fetch1 : RequestModel → FetchOutcome)
    (cfg : RequestConfig) : Except HttpErrorM HttpResponseM :=
  if (cfg.url.getD "") = "" then
    .error { message := "URL is required", config := some cfg, response := none,
             code := none, status := none }
  else
    match fetch1 (builtRequest cfg) with
    | .abort => .error (HttpError.fromTimeout cfg)
    | .network m => .error (HttpError.fromNetworkError m cfg)
    | .unknownThrow =>
      .error { message := "Unknown error occurred", config := some cfg,
               response := none, code := none, status := none }
    | .success r =>
      let resp := builtResponse cfg r
      if effectiveValidate d cfg resp.status then .ok resp
      else .error (HttpError.fromResponse resp cfg)

/-- The three interceptor kinds (part_002 lines 28-30); a `.error` models a
throw/rejection. -/
structure HttpAdapterModel where
  defaultConfig : AdapterCfg
  requestInterceptors : List (RequestConfig → Except HttpErrorM RequestConfig)
  responseInterceptors : List (HttpResponseM → Except HttpErrorM HttpResponseM)
  errorInterceptors : List (HttpErrorM → Except HttpErrorM HttpResponseM)

/-- `applyRequestInterceptors` (part_001 lines 337-347): strict registration
order, each feeding the next. -/
def applyRequestInterceptors :
    List (RequestConfig → Except HttpErrorM RequestConfig) → RequestConfig →
    Except HttpErrorM RequestConfig
  | [], cfg => .ok cfg
  | i :: rest, cfg =>
    match i cfg with
    | .ok cfg2 => applyRequestInterceptors rest cfg2
    | .error e => .error e

/-- `applyResponseInterceptors` (part_001 lines 349-359). -/
def applyResponseInterceptors :
    List (HttpResponseM → Except HttpErrorM HttpResponseM) → HttpResponseM →
    Except HttpErrorM HttpResponseM
  | [], resp => .ok resp
  | i :: rest, resp =>
    match i resp with
    | .ok resp2 => applyResponseInterceptors rest resp2
    | .error e => .error e

/-- The interceptor loop of `handleError` (part_001 lines 456-462): the first
interceptor that returns ends the loop with its response; a throwing
interceptor replaces the current error and the loop continues. -/
def handleErrorLoop :
    List (HttpErrorM → Except HttpErrorM HttpResponseM) → HttpErrorM →
    Except HttpErrorM HttpResponseM
  | [], e => .error e
  | i :: rest, e =>
    match i e with
    | .ok r => .ok r
    | .error e2 => handleErrorLoop rest e2

inductive HandleOutcome where
  | recovered (r : HttpResponseM)
  | retryWith (cfg : RequestConfig) (delay : ℚ)
  | failed (e : HttpErrorM)

/-- `HttpAdapter.handleError` (part_001 lines 453-477): run the interceptor
loop; if unrecovered and the surviving error's config has a truthy positive
retry budget, resubmit with the budget decremented after sleeping
`Math.pow(2, (defaultConfig.retries || 3) - retryConfig.retries) * 1000`
ms (a rational, since the exponent can be negative); otherwise surface the
error. -/
def handleError (ad : HttpAdapterModel) (e : HttpErrorM) : HandleOutcome :=
  match handleErrorLoop ad.errorInterceptors e with
  | .ok r => .recovered r
  | .error e2 =>
    match e2.config with
    | some c =>
      match c.retries with
      | some r =>
        if 0 < r then
          .retryWith { c with retries := some (r - 1) }
            ((2 : ℚ) ^ ((jsOr ad.defaultConfig.retries 3 : ℤ) - ((r : ℤ) - 1)) * 1000)
        else .failed e2
      | none => .failed e2
    | none => .failed e2

/-- One pass of the `try` block of `HttpAdapter.request` (part_001 lines
224-231): merge, request interceptors, transport, response interceptors. -/
def pipelineOnce (ad : HttpAdapterModel) (fetch1 : RequestModel → FetchOutcome)
    (cfg : RequestConfig) : Except HttpErrorM HttpResponseM := do
  let merged := mergeConfig ad.defaultConfig cfg
  let finalCfg ← applyRequestInterceptors ad.requestInterceptors merged
  let resp ← makeRequest ad.defaultConfig fetch1 finalCfg
  applyResponseInterceptors ad.responseInterceptors resp

/-- `HttpAdapter.request` (part_001 lines 221-235) with its `handleError`
retry recursion.  `fetch` is indexed by the attempt number; the returned
list collects the backoff delays slept before each resubmission.  `fuel`
bounds the recursion (adversarial error interceptors could forge a config
with a fresh budget; with honest configs any `fuel > retries` is enough);
the fuel-0 result is a model artifact never reached in the theorems. -/
def requestRun (ad : HttpAdapterModel) (fetch : Nat → RequestModel → FetchOutcome) :
    Nat → Nat → RequestConfig → Except HttpErrorM HttpResponseM × List ℚ
  | _, 0, _ =>
    (.error { message := "retry fuel exhausted", config := none, response := none,
              code := none, status := none }, [])
  | attempt, fuel + 1, cfg =>
    match pipelineOnce ad (fetch attempt) cfg with
    | .ok resp => (.ok resp, [])
    | .error e =>
      match handleError ad e with
      | .recovered r => (.ok r, [])
      | .failed e2 => (.error e2, [])
      | .retryWith cfg2 dl =>
        let r := requestRun ad fetch (attempt + 1) fuel cfg2
        (r.1, dl :: r.2)

/-! ### Claim theorems: C4, C6, C9, C10 -/

theorem handleErrorLoop_append_recover
    (pre : List (HttpErrorM → Except HttpErrorM HttpResponseM))
    (i : HttpErrorM → Except HttpErrorM HttpResponseM)
    (post : List (HttpErrorM → Except HttpErrorM HttpResponseM)) :
    ∀ (e e2 : HttpErrorM) (resp : HttpResponseM),
      handleErrorLoop pre e = .error e2 → i e2 = .ok resp →
      handleErrorLoop (pre ++ i :: post) e = .ok resp := by
  induction pre with
  | nil =>
    intro e e2 resp hpre hi
    simp only [handleErrorLoop] at hpre
    cases hpre
    simp [handleErrorLoop, hi]
  | cons j rest ih =>
    intro e e2 resp hpre hi
    simp only [handleErrorLoop] at hpre ⊢
    cases hj : j e with
    | ok r => rw [hj] at hpre; cases hpre
    | error e3 =>
      rw [hj] at hpre
      exact ih e3 e2 resp hpre hi

/-- C6: the default status validator accepts exactly the statuses 200-299;
and a fetched response whose status fails the effective validator makes
`makeRequest` raise the status-classified error (`REQUEST_FAILED`) carrying
the response status and the full response whose data is the parsed body
(as-is when no `transformResponse` is configured). -/
theorem c6_default_validator_status_error (d : AdapterCfg)
    (fetch1 : RequestModel → FetchOutcome) (cfg : RequestConfig) (r : FetchSuccess) :
    (∀ s : Nat, defaultValidateStatus s = true ↔ (200 ≤ s ∧ s ≤ 299)) ∧
    (cfg.url.getD "" ≠ "" → fetch1 (builtRequest cfg) = .success r →
      effectiveValidate d cfg r.status = false →
      makeRequest d fetch1 cfg =
        .error (HttpError.fromResponse (builtResponse cfg r) cfg) ∧
      (HttpError.fromResponse (builtResponse cfg r) cfg).status = some r.status ∧
      (HttpError.fromResponse (builtResponse cfg r) cfg).code = some "REQUEST_FAILED" ∧
      (HttpError.fromResponse (builtResponse cfg r) cfg).response =
        some (builtResponse cfg r) ∧
      (cfg.transformResponse = none → (builtResponse cfg r).data = parseBodyData r)) := by
  constructor
  · intro s
    unfold defaultValidateStatus
    simp only [Bool.and_eq_true, decide_eq_true_eq]
    omega
  · intro hurl hfetch hval
    refine ⟨?_, rfl, rfl, rfl, ?_⟩
    · unfold makeRequest
      rw [if_neg hurl, hfetch]
      show (if effectiveValidate d cfg (builtResponse cfg r).status = true then
          Except.ok (builtResponse cfg r)
        else Except.error (HttpError.fromResponse (builtResponse cfg r) cfg)) = _
      have hst : effectiveValidate d cfg (builtResponse cfg r).status = false := hval
      rw [hst]
      simp
    · intro hnone
      unfold builtResponse
      rw [hnone]

def c6Cfg : RequestConfig :=
  ⟨some .GET, some "https://api.x/v1", none, [], [], .undef, none, none, none,
    none, none⟩

def c6Resp : FetchSuccess :=
  ⟨404, "Not Found", [], some "application/json", .vstr "nope", "", ""⟩

def c6Fetch : RequestModel → FetchOutcome := fun _ => .success c6Resp

def c6Defaults : AdapterCfg :=
  mkHttpAdapterCfg ⟨none, none, none, none, none, none, none⟩

theorem c6_default_validator_status_error_witness :
    makeRequest c6Defaults c6Fetch c6Cfg =
      .error (HttpError.fromResponse (builtResponse c6Cfg c6Resp) c6Cfg) ∧
    (HttpError.fromResponse (builtResponse c6Cfg c6Resp) c6Cfg).status =
      some c6Resp.status ∧
    (HttpError.fromResponse (builtResponse c6Cfg c6Resp) c6Cfg).code =
      some "REQUEST_FAILED" ∧
    (HttpError.fromResponse (builtResponse c6Cfg c6Resp) c6Cfg).response =
      some (builtResponse c6Cfg c6Resp) ∧
    (c6Cfg.transformResponse = none →
      (builtResponse c6Cfg c6Resp).data = parseBodyData c6Resp) :=
  (c6_default_validator_status_error c6Defaults c6Fetch c6Cfg c6Resp).2
    (by decide) rfl (by decide)

/-- C9: a request whose method is GET or HEAD is issued to the transport
with no body (`makeRequest` invokes the fetch on exactly `builtRequest`),
whatever the data payload and the request transformer. -/
theorem c9_get_head_requests_have_no_body (cfg : RequestConfig)
    (h : cfg.method = some .GET ∨ cfg.method = some .HEAD) :
    (builtRequest cfg).body = none := by
  rcases h with h | h <;> simp [builtRequest, computeBody, h]

def c9Cfg : RequestConfig :=
  ⟨some .GET, some "https://api.x/v1", none, [], [], .vstr "payload", none,
    none, none, none, none⟩

theorem c9_get_head_requests_have_no_body_witness :
    (builtRequest c9Cfg).body = none :=
  c9_get_head_requests_have_no_body c9Cfg (Or.inl rfl)

/-- C10: if the pipeline fails and the error-interceptor list is
`pre ++ i :: post` where the interceptors of `pre` all throw (chaining the
error to `e2`) and `i e2` returns the substitute response, then the whole
request resolves to exactly that substitute — the interceptors of `post`
are never consulted, the response interceptors are not applied (the result
is `resp` itself, whatever `ad.responseInterceptors` holds), and no retry
is consumed (the delay trace is empty and later fetch attempts are
irrelevant). -/
theorem c10_error_interceptor_recovery_short_circuits (ad : HttpAdapterModel)
    (fetch : Nat → RequestModel → FetchOutcome) (cfg : RequestConfig)
    (attempt fuel : Nat) (e e2 : HttpErrorM) (resp : HttpResponseM)
    (pre post : List (HttpErrorM → Except HttpErrorM HttpResponseM))
    (i : HttpErrorM → Except HttpErrorM HttpResponseM)
    (hints : ad.errorInterceptors = pre ++ i :: post)
    (hpipe : pipelineOnce ad (fetch attempt) cfg = .error e)
    (hpre : handleErrorLoop pre e = .error e2)
    (hi : i e2 = .ok resp) :
    requestRun ad fetch attempt (fuel + 1) cfg = (.ok resp, []) := by
  have hloop : handleErrorLoop ad.errorInterceptors e = .ok resp := by
    rw [hints]
    exact handleErrorLoop_append_recover pre i post e e2 resp hpre hi
  simp only [requestRun, hpipe, handleError, hloop]

def c10Cfg : RequestConfig :=
  ⟨some .GET, some "https://api.x/v1", none, [], [], .undef, none, none, none,
    none, none⟩

def c10Resp : HttpResponseM := ⟨.vstr "substitute", 200, "OK", [], c10Cfg⟩

def c10Recover : HttpErrorM → Except HttpErrorM HttpResponseM :=
  fun _ => .ok c10Resp

def c10Thrower : HttpErrorM → Except HttpErrorM HttpResponseM :=
  fun e => .error e

def c10RespInterceptor : HttpResponseM → Except HttpErrorM HttpResponseM :=
  fun r => .ok { r with statusText := "tampered" }

def c10Ad : HttpAdapterModel :=
  ⟨mkHttpAdapterCfg ⟨none, none, none, none, none, none, none⟩, [],
    [c10RespInterceptor], [c10Recover, c10Thrower]⟩

def c10Fetch : Nat → RequestModel → FetchOutcome := fun _ _ => .network "down"

theorem c10_error_interceptor_recovery_short_circuits_witness :
    requestRun c10Ad c10Fetch 0 1 c10Cfg = (.ok c10Resp, []) :=
  c10_error_interceptor_recovery_short_circuits c10Ad c10Fetch c10Cfg 0 0
    (HttpError.fromNetworkError "down" (mergeConfig c10Ad.defaultConfig c10Cfg))
    (HttpError.fromNetworkError "down" (mergeConfig c10Ad.defaultConfig c10Cfg))
    c10Resp [] [c10Thrower] c10Recover rfl rfl rfl rfl

/-- C4 (amended): when the pipeline fails, no error interceptor recovers, and
the surviving error's config carries a remaining budget r > 0, the client
sleeps `1000 * 2^(defaultRetries + 1 - r)` ms — where `defaultRetries` is
the client-level `retries || 3` — and resubmits the whole pipeline with the
budget decremented by one; this delay equals the claimed
`1000 * 2^(attemptsUsed)` exactly when the request's initial budget equals
`defaultRetries` (then `attemptsUsed = defaultRetries + 1 - r`); when the
budget is zero or absent the classified failure is surfaced.  The claim as
stated fails for a request whose budget differs from the client default
(see the counterexample). -/
theorem c4_retry_delay_and_resubmission (ad : HttpAdapterModel)
    (e e2 : HttpErrorM) (c : RequestConfig) (r : Nat)
    (hloop : handleErrorLoop ad.errorInterceptors e = .error e2)
    (hcfg : e2.config = some c) :
    (c.retries = some r → 0 < r →
      handleError ad e = .retryWith { c with retries := some (r - 1) }
        ((2 : ℚ) ^ ((jsOr ad.defaultConfig.retries 3 : ℤ) - ((r : ℤ) - 1)) * 1000) ∧
      (∀ k : Nat, (k : ℤ) = (jsOr ad.defaultConfig.retries 3 : ℤ) + 1 - (r : ℤ) →
        (2 : ℚ) ^ ((jsOr ad.defaultConfig.retries 3 : ℤ) - ((r : ℤ) - 1)) * 1000 =
          1000 * (2 : ℚ) ^ k)) ∧
    (c.retries = none ∨ c.retries = some 0 → handleError ad e = .failed e2) ∧
    (∀ fetch attempt fuel cfg cfg2 dl,
      pipelineOnce ad (fetch attempt) cfg = .error e →
      handleError ad e = .retryWith cfg2 dl →
      requestRun ad fetch attempt (fuel + 1) cfg =
        ((requestRun ad fetch (attempt + 1) fuel cfg2).1,
          dl :: (requestRun ad fetch (attempt + 1) fuel cfg2).2)) := by
  refine ⟨?_, ?_, ?_⟩
  · intro hret hpos
    constructor
    · unfold handleError
      rw [hloop]
      dsimp only
      rw [hcfg]
      dsimp only
      rw [hret]
      dsimp only
      rw [if_pos hpos]
    · intro k hk
      have hexp : (jsOr ad.defaultConfig.retries 3 : ℤ) - ((r : ℤ) - 1) = (k : ℤ) := by
        omega
      rw [hexp, zpow_natCast]
      ring
  · intro hz
    unfold handleError
    rw [hloop]
    dsimp only
    rw [hcfg]
    dsimp only
    rcases hz with hz | hz
    · rw [hz]
    · rw [hz]
      dsimp only
      rw [if_neg (by omega)]
  · intro fetch attempt fuel cfg cfg2 dl hpipe hhe
    simp only [requestRun, hpipe, hhe]

def c4Defaults : AdapterCfg :=
  mkHttpAdapterCfg ⟨none, none, none, none, none, none, none⟩

def c4Ad : HttpAdapterModel := ⟨c4Defaults, [], [], []⟩

/-- A request-level retry budget of 1, differing from the client default 3. -/
def c4Cfg1 : RequestConfig :=
  ⟨some .GET, some "https://api.x/v1", none, [], [], .undef, none, some 1,
    none, none, none⟩

def c4Err1 : HttpErrorM :=
  ⟨"Network Error: down", some c4Cfg1, none, some "NETWORK_ERROR", none⟩

/-- C4 counterexample: with the default client budget 3 and a request budget
of 1, the single possible failed attempt (attemptsUsed = 1) is followed by
a sleep of `2^(3 - 0) * 1000 = 8000` ms, not the claimed
`1000 * 2^1 = 2000` ms. -/
theorem c4_retry_delay_counterexample :
    handleError c4Ad c4Err1 =
      .retryWith { c4Cfg1 with retries := some 0 } 8000 ∧
    (8000 : ℚ) ≠ 1000 * (2 : ℚ) ^ (1 : ℕ) := by
  constructor
  · unfold handleError
    rw [show handleErrorLoop c4Ad.errorInterceptors c4Err1 = .error c4Err1 from rfl]
    dsimp only
    rw [show c4Err1.config = some c4Cfg1 from rfl]
    dsimp only
    rw [show c4Cfg1.retries = some 1 from rfl]
    dsimp only
    rw [if_pos (by omega)]
    refine congrArg (HandleOutcome.retryWith _) ?_
    norm_num [c4Ad, c4Defaults, mkHttpAdapterCfg, jsOr]
  · norm_num

def c4Cfg3 : RequestConfig := { c4Cfg1 with retries := some 3 }

def c4Err3 : HttpErrorM :=
  ⟨"Network Error: down", some c4Cfg3, none, some "NETWORK_ERROR", none⟩

theorem c4_retry_delay_and_resubmission_witness :
    handleError c4Ad c4Err3 = .retryWith { c4Cfg3 with retries := some 2 }
      ((2 : ℚ) ^ ((jsOr c4Ad.defaultConfig.retries 3 : ℤ) - ((3 : ℤ) - 1)) * 1000) ∧
    (2 : ℚ) ^ ((jsOr c4Ad.defaultConfig.retries 3 : ℤ) - ((3 : ℤ) - 1)) * 1000 =
      1000 * (2 : ℚ) ^ (1 : ℕ) := by
  have h := (c4_retry_delay_and_resubmission c4Ad c4Err3 c4Err3 c4Cfg3 3
    rfl rfl).1 rfl (by omega)
  exact ⟨h.1, h.2 1 (by decide)⟩

end Zenopay
